import Mathlib

/-!
Verification of the Postgres replication client (`src/clients/postgres.rs` of
`pg_replicate`) against its specification.

The catalog queries issued by the client and the row-processing loops that
consume their results are shallowly embedded: catalog tables become lists of
typed rows, the SQL `WHERE` / `ORDER BY` / `LIMIT` clauses become filters,
sorts and `head?`, and Postgres' text rendering of values (via the simple
query protocol) together with Rust's `str::parse` calls become explicit
render / parse functions on strings.
-/

namespace PgReplicate

/-! ## Decimal and hexadecimal text: rendering (Postgres side) and parsing (Rust side) -/

/-- Numeric value of a decimal digit character (only meaningful on digits). -/
def charVal (c : Char) : Nat := c.toNat - 48

/-- Read a most-significant-first list of decimal digit characters as a number. -/
def digitsToNat (l : List Char) : Nat :=
  l.foldl (fun acc c => acc * 10 + charVal c) 0

/-- Rust's integer parsers accept one optional leading `+`. -/
def stripPlus (l : List Char) : List Char :=
  match l with
  | [] => []
  | c :: rest => if c = '+' then rest else c :: rest

/-- Model of `str::parse::<u64>`-style unsigned decimal parsing, without a bound:
an optional `+`, then one or more ASCII digits. -/
def parseNatText (s : String) : Option Nat :=
  let l := stripPlus s.data
  if !l.isEmpty && l.all Char.isDigit then some (digitsToNat l) else none

/-- Model of Rust `str::parse::<u32>`: decimal text, value must fit in 32 bits. -/
def parseU32 (s : String) : Option Nat :=
  match parseNatText s with
  | some n => if n < 2 ^ 32 then some n else none
  | none => none

/-- Signed decimal parsing: optional `-` or `+`, then one or more digits. -/
def parseIntText (s : String) : Option Int :=
  match s.data with
  | [] => none
  | c :: rest =>
    if c = '-' then
      if !rest.isEmpty && rest.all Char.isDigit then some (-(digitsToNat rest : Int)) else none
    else
      let l := if c = '+' then rest else c :: rest
      if !l.isEmpty && l.all Char.isDigit then some ((digitsToNat l : Nat) : Int) else none

/-- Model of Rust `str::parse::<i32>`: signed decimal text within the `i32` range. -/
def parseI32 (s : String) : Option Int :=
  match parseIntText s with
  | some i => if -(2 ^ 31) ≤ i ∧ i < 2 ^ 31 then some i else none
  | none => none

/-- Little-endian decimal digits of `n`, with explicit structural fuel. -/
def toDecimalAux : Nat → Nat → List Nat
  | 0, _ => []
  | fuel + 1, n => if n = 0 then [] else n % 10 :: toDecimalAux fuel (n / 10)

/-- Little-endian decimal digits of `n` (empty for zero). -/
def natDigits (n : Nat) : List Nat := toDecimalAux n n

/-- Postgres / Rust decimal rendering of an unsigned number. -/
def renderNat (n : Nat) : String :=
  if n = 0 then "0" else ⟨(natDigits n).reverse.map Nat.digitChar⟩

/-- Postgres / Rust decimal rendering of a signed number. -/
def renderInt (i : Int) : String :=
  if i < 0 then ⟨'-' :: (renderNat i.natAbs).data⟩ else renderNat i.toNat

/-- Postgres renders a `bool` catalog column as `t` or `f` over the simple query protocol. -/
def renderBool (b : Bool) : String := if b then "t" else "f"

lemma toDecimalAux_eq_digits : ∀ fuel n, n ≤ fuel → toDecimalAux fuel n = Nat.digits 10 n := by
  intro fuel
  induction fuel with
  | zero =>
    intro n hn
    interval_cases n
    simp [toDecimalAux]
  | succ f ih =>
    intro n hn
    by_cases h0 : n = 0
    · simp [toDecimalAux, h0]
    · have hpos : 0 < n := Nat.pos_of_ne_zero h0
      have hdiv : n / 10 < n := Nat.div_lt_self hpos (by norm_num)
      have : n / 10 ≤ f := by omega
      simp only [toDecimalAux, if_neg h0]
      rw [ih _ this, Nat.digits_def' (by norm_num : (1 : Nat) < 10) hpos]

lemma natDigits_eq_digits (n : Nat) : natDigits n = Nat.digits 10 n :=
  toDecimalAux_eq_digits n n le_rfl

lemma digitChar_isDigit {d : Nat} (hd : d < 10) : (Nat.digitChar d).isDigit = true := by
  interval_cases d <;> decide

lemma charVal_digitChar {d : Nat} (hd : d < 10) : charVal (Nat.digitChar d) = d := by
  interval_cases d <;> decide

lemma digitsToNat_rev_map (ds : List Nat) (h : ∀ d ∈ ds, d < 10) :
    digitsToNat (ds.reverse.map Nat.digitChar) = Nat.ofDigits 10 ds := by
  induction ds with
  | nil => simp [digitsToNat]
  | cons d tail ih =>
    have hd : d < 10 := h d (by simp)
    have htail : ∀ x ∈ tail, x < 10 := fun x hx => h x (by simp [hx])
    have : (d :: tail).reverse.map Nat.digitChar =
        tail.reverse.map Nat.digitChar ++ [Nat.digitChar d] := by
      simp
    rw [this, Nat.ofDigits_cons]
    unfold digitsToNat
    rw [List.foldl_append]
    have ihv := ih htail
    unfold digitsToNat at ihv
    rw [ihv]
    simp [charVal_digitChar hd]
    ring

lemma renderNat_data_ne_nil (n : Nat) : (renderNat n).data ≠ [] := by
  unfold renderNat
  by_cases h : n = 0
  · simp [h]
  · have : Nat.digits 10 n ≠ [] := Nat.digits_ne_nil_iff_ne_zero.mpr h
    simp [h, natDigits_eq_digits, this]

lemma renderNat_data_all_digit (n : Nat) : ∀ c ∈ (renderNat n).data, c.isDigit = true := by
  unfold renderNat
  by_cases h : n = 0
  · subst h
    decide
  · simp only [h, if_neg, ite_false]
    intro c hc
    simp only [natDigits_eq_digits] at hc
    rcases List.mem_map.mp hc with ⟨d, hd, rfl⟩
    have : d < 10 := Nat.digits_lt_base (by norm_num) (List.mem_reverse.mp hd)
    exact digitChar_isDigit this

lemma digitsToNat_renderNat (n : Nat) : digitsToNat (renderNat n).data = n := by
  unfold renderNat
  by_cases h : n = 0
  · simp [h]
    decide
  · simp only [h, if_neg, ite_false]
    show digitsToNat ((natDigits n).reverse.map Nat.digitChar) = n
    rw [natDigits_eq_digits,
      digitsToNat_rev_map _ (fun d hd => Nat.digits_lt_base (by norm_num) hd),
      Nat.ofDigits_digits]

lemma stripPlus_of_digits {l : List Char} (h : ∀ c ∈ l, c.isDigit = true) :
    stripPlus l = l := by
  cases l with
  | nil => rfl
  | cons c rest =>
    have : c.isDigit = true := h c (by simp)
    have hne : c ≠ '+' := by
      intro hc
      rw [hc] at this
      exact absurd this (by decide)
    simp [stripPlus, hne]

lemma parseNatText_renderNat (n : Nat) : parseNatText (renderNat n) = some n := by
  unfold parseNatText
  rw [stripPlus_of_digits (renderNat_data_all_digit n)]
  have h1 : ((renderNat n).data.isEmpty) = false := by
    rw [List.isEmpty_eq_false_iff_exists_mem]
    rcases List.exists_mem_of_ne_nil _ (renderNat_data_ne_nil n) with ⟨c, hc⟩
    exact ⟨c, hc⟩
  have h2 : (renderNat n).data.all Char.isDigit = true :=
    List.all_eq_true.mpr (renderNat_data_all_digit n)
  simp only [h1, h2, Bool.not_false, Bool.true_and, if_true]
  rw [digitsToNat_renderNat]

lemma parseU32_renderNat {n : Nat} (h : n < 2 ^ 32) : parseU32 (renderNat n) = some n := by
  unfold parseU32
  rw [parseNatText_renderNat]
  show (if n < 2 ^ 32 then some n else none) = some n
  rw [if_pos h]

lemma parseIntText_renderInt (i : Int) : parseIntText (renderInt i) = some i := by
  by_cases hneg : i < 0
  · have habs : (0 : Nat) < i.natAbs := by
      have : i ≠ 0 := by omega
      exact Int.natAbs_pos.mpr this
    unfold renderInt
    rw [if_pos hneg]
    unfold parseIntText
    show (if '-' = '-' then _ else _) = _
    rw [if_pos rfl]
    have h1 : ((renderNat i.natAbs).data.isEmpty) = false := by
      rw [List.isEmpty_eq_false_iff_exists_mem]
      rcases List.exists_mem_of_ne_nil _ (renderNat_data_ne_nil i.natAbs) with ⟨c, hc⟩
      exact ⟨c, hc⟩
    have h2 : (renderNat i.natAbs).data.all Char.isDigit = true :=
      List.all_eq_true.mpr (renderNat_data_all_digit i.natAbs)
    simp only [h1, h2, Bool.not_false, Bool.true_and, if_true]
    rw [digitsToNat_renderNat]
    congr 1
    omega
  · push_neg at hneg
    unfold renderInt
    rw [if_neg (by omega)]
    have hdig := renderNat_data_all_digit i.toNat
    have hne := renderNat_data_ne_nil i.toNat
    unfold parseIntText
    rcases hl : (renderNat i.toNat).data with _ | ⟨c, rest⟩
    · exact absurd hl hne
    · have hcdig : c.isDigit = true := by
        apply hdig
        rw [hl]
        simp
      have hcm : c ≠ '-' := by
        intro hc
        rw [hc] at hcdig
        exact absurd hcdig (by decide)
      have hcp : c ≠ '+' := by
        intro hc
        rw [hc] at hcdig
        exact absurd hcdig (by decide)
      show (if c = '-' then _ else _) = some i
      rw [if_neg hcm]
      simp only [if_neg hcp]
      have h2 : (c :: rest).all Char.isDigit = true := by
        rw [← hl]
        exact List.all_eq_true.mpr hdig
      simp only [List.isEmpty_cons, h2, Bool.not_false, Bool.true_and, if_true]
      have : digitsToNat (c :: rest) = i.toNat := by
        rw [← hl, digitsToNat_renderNat]
      rw [this]
      congr 1
      omega

lemma parseI32_renderInt {i : Int} (h1 : -(2 ^ 31) ≤ i) (h2 : i < 2 ^ 31) :
    parseI32 (renderInt i) = some i := by
  unfold parseI32
  rw [parseIntText_renderInt]
  show (if -(2 ^ 31) ≤ i ∧ i < 2 ^ 31 then some i else none) = some i
  rw [if_pos ⟨h1, h2⟩]

/-! ## Data model

`TableName`, `ColumnSchema`, `LookupKey`, `TableSchema` and
`TableSchema::has_safe_lookup_key` live in `crate::table` (`src/table.rs`),
which is not among the provided sources; they are modelled from the spec. -/

/-- Modelled from the spec: `TableName` from `crate::table` — a pair
`(schema, name)`, equality by both parts. -/
structure TableName where
  schema : String
  name : String
deriving DecidableEq, Repr

/-- Kind of a resolved Postgres type; the client only ever builds `Simple`. -/
inductive PgKind where
  | Simple
deriving DecidableEq, Repr

/-- A resolved Postgres logical type (`tokio_postgres::types::Type`):
name, OID, kind and schema. -/
structure PgType where
  name : String
  oid : Nat
  kind : PgKind
  schema : String
deriving DecidableEq, Repr

/-- A fragment of the built-in table of well-known Postgres types behind
`Type::from_oid` in the `tokio-postgres` dependency (name, OID pairs from
`pg_catalog`). Only its shape — a partial map from OIDs — matters here. -/
def wellKnownTypes : List PgType :=
  [⟨"bool", 16, .Simple, "pg_catalog"⟩,
   ⟨"bytea", 17, .Simple, "pg_catalog"⟩,
   ⟨"int8", 20, .Simple, "pg_catalog"⟩,
   ⟨"int2", 21, .Simple, "pg_catalog"⟩,
   ⟨"int4", 23, .Simple, "pg_catalog"⟩,
   ⟨"text", 25, .Simple, "pg_catalog"⟩,
   ⟨"oid", 26, .Simple, "pg_catalog"⟩,
   ⟨"float4", 700, .Simple, "pg_catalog"⟩,
   ⟨"float8", 701, .Simple, "pg_catalog"⟩,
   ⟨"varchar", 1043, .Simple, "pg_catalog"⟩,
   ⟨"date", 1082, .Simple, "pg_catalog"⟩,
   ⟨"time", 1083, .Simple, "pg_catalog"⟩,
   ⟨"timestamp", 1114, .Simple, "pg_catalog"⟩,
   ⟨"timestamptz", 1184, .Simple, "pg_catalog"⟩,
   ⟨"numeric", 1700, .Simple, "pg_catalog"⟩,
   ⟨"uuid", 2950, .Simple, "pg_catalog"⟩,
   ⟨"jsonb", 3802, .Simple, "pg_catalog"⟩]

/-- `Type::from_oid` of the `tokio-postgres` dependency: look an OID up among
the well-known types. -/
def PgType.from_oid (oid : Nat) : Option PgType :=
  wellKnownTypes.find? (fun t => t.oid == oid)

/-- Modelled from the spec: `ColumnSchema` from `crate::table` —
`(name, typ, modifier, nullable)`. -/
structure ColumnSchema where
  name : String
  typ : PgType
  modifier : Int
  nullable : Bool
deriving DecidableEq, Repr

/-- Modelled from the spec: `LookupKey` from `crate::table` — a tagged value,
either a named unique index with its ordered column list, or `FullRow`. -/
inductive LookupKey where
  | Key (name : String) (columns : List String)
  | FullRow
deriving DecidableEq, Repr

/-- Modelled from the spec: `TableSchema` from `crate::table`. -/
structure TableSchema where
  table_name : TableName
  table_id : Nat
  column_schemas : List ColumnSchema
  lookup_key : LookupKey
deriving DecidableEq, Repr

/-- Modelled from the spec: `TableSchema::has_safe_lookup_key` from
`crate::table` — a lookup key is safe iff it is a `Key` variant. -/
def TableSchema.has_safe_lookup_key (t : TableSchema) : Bool :=
  match t.lookup_key with
  | .Key _ _ => true
  | .FullRow => false

/-- `ReplicationClientError` from `src/clients/postgres.rs`. The payload of the
driver error variant is irrelevant to the claims and elided. -/
inductive ReplicationClientError where
  | TokioPostgresError
  | MissingColumn (column : String) (table : String)
  | MissingPublication (name : String)
  | OidColumnNotU32
  | ReplicaIdentityNotSupported (ident : String)
  | TypeModifierColumnNotI32
  | UnsupportedType (column : String) (oid : Nat) (rel : String)
  | MissingTable (table : TableName)
  | InvalidPgLsn
  | FailedToCreateSlot
deriving DecidableEq, Repr

/-! ## Catalog state

Typed models of the `pg_catalog` rows the client's queries read. -/

/-- A `pg_attribute` row (the fields the client's queries consult). -/
structure PgAttribute where
  attrelid : Nat
  attnum : Int
  attname : String
  atttypid : Nat
  atttypmod : Int
  attnotnull : Bool
  attisdropped : Bool
  attgenerated : String
deriving DecidableEq, Repr

/-- A `pg_index` row joined with `pg_class` for the index relation's name,
and with `pg_constraint` for deferrability of an owning constraint.
`indpredIsNull` is true when the index is not partial. The source's
lookup-key query never reads `condeferrable`; it is catalog state. -/
structure PgIndex where
  indexrelname : String
  indrelid : Nat
  indisunique : Bool
  indisprimary : Bool
  indpredIsNull : Bool
  indkey : List Int
  condeferrable : Bool
deriving DecidableEq, Repr

/-- A `pg_class ⋈ pg_namespace` row as text over the simple query protocol
(the `oid` and `relreplident` output columns may be absent: `try_get`). -/
structure PgClassRow where
  nspname : String
  relname : String
  oid : Option String
  relreplident : Option String
deriving DecidableEq, Repr

/-- A `pg_publication_rel` row joined with `pg_publication` for the name. -/
structure PgPublicationRel where
  pubname : String
  prrelid : Nat
  prattrs : List Int
deriving DecidableEq, Repr

/-- A `pg_publication_tables` row; `schemaname` / `tablename` as optional text. -/
structure PgPublicationTableRow where
  pubname : String
  schemaname : Option String
  tablename : Option String
deriving DecidableEq, Repr

/-- The catalog state visible to the discovery queries. -/
structure Catalog where
  classes : List PgClassRow
  attributes : List PgAttribute
  indexes : List PgIndex
  publicationRels : List PgPublicationRel
deriving DecidableEq, Repr

/-! ## `get_column_schemas` -/

/-- One result row of the column-info query as delivered by the simple query
protocol: each selected column as optional text. -/
structure RawColumnRow where
  attname : Option String
  atttypid : Option String
  atttypmod : Option String
  attnotnull : Option String
deriving DecidableEq, Repr

/-- The placeholder type synthesized for an OID unknown to `Type::from_oid`:
`Type::new(format!("unnamed(oid: N)"), oid, Kind::Simple, "pg_catalog")`. -/
def unnamedType (oid : Nat) : PgType :=
  ⟨"unnamed(oid: " ++ renderNat oid ++ ")", oid, .Simple, "pg_catalog"⟩

/-- `Type::from_oid(type_oid).unwrap_or(Type::new(...))`. -/
def resolveType (oid : Nat) : PgType :=
  (PgType.from_oid oid).getD (unnamedType oid)

/-- The body of the row loop of `get_column_schemas`: extract and parse
`attname`, `atttypid`, `atttypmod`, `attnotnull` in source order, producing a
`ColumnSchema` with `nullable = (attnotnull == "f")`. -/
def processColumnRow (r : RawColumnRow) : Except ReplicationClientError ColumnSchema :=
  match r.attname with
  | none => .error (.MissingColumn "attname" "pg_attribute")
  | some name =>
    match r.atttypid with
    | none => .error (.MissingColumn "atttypid" "pg_attribute")
    | some oidText =>
      match parseU32 oidText with
      | none => .error .OidColumnNotU32
      | some type_oid =>
        let typ := resolveType type_oid
        match r.atttypmod with
        | none => .error (.MissingColumn "atttypmod" "pg_attribute")
        | some modText =>
          match parseI32 modText with
          | none => .error .TypeModifierColumnNotI32
          | some modifier =>
            match r.attnotnull with
            | none => .error (.MissingColumn "attnotnull" "pg_attribute")
            | some nn => .ok ⟨name, typ, modifier, nn == "f"⟩

/-- The `pub_attrs` CTE: `unnest(r.prattrs)` over `pg_publication_rel` rows
matching the publication name and the relation. -/
def pubAttnums (pubRels : List PgPublicationRel) (publication : String)
    (table_id : Nat) : List Int :=
  (pubRels.filter fun r => r.pubname == publication && r.prrelid == table_id).flatMap
    (·.prattrs)

/-- The fixed `WHERE` conditions of the column-info query:
`attnum > 0 AND NOT attisdropped AND attgenerated = ''`. -/
def attBaseOk (a : PgAttribute) : Bool :=
  decide (0 < a.attnum) && !a.attisdropped && a.attgenerated == ""

/-- The publication predicate appended when a publication is supplied:
`case count(pub_attrs) when 0 then true else attnum in pub_attrs end`. -/
def pubPredOk (pubRels : List PgPublicationRel) (publication : Option String)
    (table_id : Nat) (a : PgAttribute) : Bool :=
  match publication with
  | none => true
  | some p =>
    let pa := pubAttnums pubRels p table_id
    if pa.isEmpty then true else pa.contains a.attnum

/-- Ordering relation realizing `order by a.attnum`. -/
def attnumLe (a b : PgAttribute) : Prop := a.attnum ≤ b.attnum

instance : DecidableRel attnumLe := fun a b =>
  inferInstanceAs (Decidable (a.attnum ≤ b.attnum))

instance : IsTotal PgAttribute attnumLe := ⟨fun a b => Int.le_total a.attnum b.attnum⟩

instance : IsTrans PgAttribute attnumLe := ⟨fun _ _ _ h1 h2 => le_trans h1 h2⟩

/-- The result rows of the column-info query: `pg_attribute` filtered for the
relation, the base conditions and the publication predicate, ordered by
`attnum`. -/
def columnQueryAttrs (attributes : List PgAttribute) (pubRels : List PgPublicationRel)
    (table_id : Nat) (publication : Option String) : List PgAttribute :=
  List.insertionSort attnumLe
    (attributes.filter fun a =>
      a.attrelid == table_id && attBaseOk a && pubPredOk pubRels publication table_id a)

/-- Text rendering of a `pg_attribute` row over the simple query protocol. -/
def renderAttrRow (a : PgAttribute) : RawColumnRow :=
  ⟨some a.attname, some (renderNat a.atttypid), some (renderInt a.atttypmod),
    some (renderBool a.attnotnull)⟩

/-- `get_column_schemas` from `src/clients/postgres.rs`: run the column-info
query and process each row in order, aborting on the first error. -/
def get_column_schemas (attributes : List PgAttribute) (pubRels : List PgPublicationRel)
    (table_id : Nat) (publication : Option String) :
    Except ReplicationClientError (List ColumnSchema) :=
  ((columnQueryAttrs attributes pubRels table_id publication).map renderAttrRow).mapM
    processColumnRow

/-- The `ColumnSchema` produced for a well-formed (in-range) catalog row. -/
def schemaOfAttr (a : PgAttribute) : ColumnSchema :=
  ⟨a.attname, resolveType a.atttypid, a.atttypmod, !a.attnotnull⟩

/-- In-range conditions under which rendering then parsing a catalog attribute
row round-trips: the OID fits in `u32` and the typmod in `i32` (facts of the
catalog column types themselves). -/
def attrInRange (a : PgAttribute) : Prop :=
  a.atttypid < 2 ^ 32 ∧ -(2 ^ 31) ≤ a.atttypmod ∧ a.atttypmod < 2 ^ 31

instance : DecidablePred attrInRange := fun a => by
  unfold attrInRange
  infer_instance

lemma processColumnRow_renderAttrRow {a : PgAttribute} (h : attrInRange a) :
    processColumnRow (renderAttrRow a) = .ok (schemaOfAttr a) := by
  obtain ⟨h1, h2, h3⟩ := h
  unfold processColumnRow renderAttrRow
  simp only [parseU32_renderNat h1, parseI32_renderInt h2 h3]
  unfold schemaOfAttr
  congr 1
  cases hb : a.attnotnull <;> simp [renderBool, hb]

lemma mapM_processColumnRow {l : List PgAttribute} (h : ∀ a ∈ l, attrInRange a) :
    (l.map renderAttrRow).mapM processColumnRow = .ok (l.map schemaOfAttr) := by
  induction l with
  | nil => rfl
  | cons a tail ih =>
    have ha := h a (by simp)
    have htail := ih fun x hx => h x (by simp [hx])
    simp only [List.map_cons, List.mapM_cons, processColumnRow_renderAttrRow ha, htail]
    rfl

/-! ## Lookup-key selection -/

/-- The candidate conditions of the lookup-key query: index on the relation,
`indisunique OR indisprimary`, `indpred IS NULL`, and the `NOT EXISTS`
subquery ruling out any index column whose attribute has
`attnotnull = false`. -/
def indexCandidateOk (attributes : List PgAttribute) (table_id : Nat) (i : PgIndex) : Bool :=
  i.indrelid == table_id && (i.indisunique || i.indisprimary) && i.indpredIsNull &&
    !(i.indkey.any fun k =>
      attributes.any fun a => a.attrelid == table_id && a.attnum == k && !a.attnotnull)

/-- `ARRAY_AGG(a.attname ORDER BY x.ordinality)`: the index columns' names in
index order, inner-joined against `pg_attribute`. -/
def indexColumnNames (attributes : List PgAttribute) (table_id : Nat) (i : PgIndex) :
    List String :=
  i.indkey.filterMap fun k =>
    (attributes.find? fun a => a.attrelid == table_id && a.attnum == k).map (·.attname)

/-- Strict lexicographic order on character lists (byte order on ASCII
identifiers, the observable `ORDER BY ... relname` order). -/
def charsLt : List Char → List Char → Bool
  | [], [] => false
  | [], _ :: _ => true
  | _ :: _, [] => false
  | a :: as, b :: bs =>
    if a.toNat < b.toNat then true
    else if b.toNat < a.toNat then false
    else charsLt as bs

def strLt (a b : String) : Bool := charsLt a.data b.data

/-- `ORDER BY i.indisprimary DESC, c2.relname` as a boolean order:
primary indexes first, then ascending index name. -/
def candidateBefore (i j : PgIndex) : Bool :=
  (i.indisprimary && !j.indisprimary) ||
    (i.indisprimary == j.indisprimary &&
      (i.indexrelname == j.indexrelname || strLt i.indexrelname j.indexrelname))

def candidateLe (i j : PgIndex) : Prop := candidateBefore i j = true

instance : DecidableRel candidateLe := fun i j =>
  inferInstanceAs (Decidable (candidateBefore i j = true))

/-- The at most one result row of the lookup-key query (`LIMIT 1`): candidates
ordered by `indisprimary DESC, relname ASC`, head taken. -/
def lookupKeyQueryRow (attributes : List PgAttribute) (indexes : List PgIndex)
    (table_id : Nat) : Option PgIndex :=
  (List.insertionSort candidateLe
    (indexes.filter (indexCandidateOk attributes table_id))).head?

/-- `query_lookup_key`: run the `LIMIT 1` query; accept the row only when all
its columns are among the published column names. (The array-literal round
trip through text is modelled as the identity on the column list, which is
faithful for column names without special characters.) -/
def query_lookup_key (attributes : List PgAttribute) (indexes : List PgIndex)
    (table_id : Nat) (published_column_names : List String) : Option LookupKey :=
  match lookupKeyQueryRow attributes indexes table_id with
  | none => none
  | some idx =>
    let columns := indexColumnNames attributes table_id idx
    if columns.all (fun n => published_column_names.contains n) then
      some (.Key idx.indexrelname columns)
    else
      none

/-- `get_lookup_key`: the published names are the schemas' names; default to
`FullRow` when the query yields no accepted key. -/
def get_lookup_key (attributes : List PgAttribute) (indexes : List PgIndex)
    (table_id : Nat) (column_schemas : List ColumnSchema) : LookupKey :=
  match query_lookup_key attributes indexes table_id (column_schemas.map (·.name)) with
  | some unique_index_key => unique_index_key
  | none => .FullRow

/-! ## `get_table_id` and `get_table_schemas` -/

/-- `get_table_id`: first `pg_class ⋈ pg_namespace` row matching
`(schema, name)`; check `relreplident ∈ {d, f}` before parsing the OID;
no row means `None`. -/
def get_table_id (classes : List PgClassRow) (table : TableName) :
    Except ReplicationClientError (Option Nat) :=
  match classes.filter fun r => r.nspname == table.schema && r.relname == table.name with
  | [] => .ok none
  | row :: _ =>
    match row.relreplident with
    | none => .error (.MissingColumn "relreplident" "pg_class")
    | some ident =>
      if ident == "d" || ident == "f" then
        match row.oid with
        | none => .error (.MissingColumn "oid" "pg_class")
        | some oidText =>
          match parseU32 oidText with
          | none => .error .OidColumnNotU32
          | some oid => .ok (some oid)
      else .error (.ReplicaIdentityNotSupported ident)

/-- `get_table_schema`: id, columns, lookup key. -/
def get_table_schema (c : Catalog) (table_name : TableName) (publication : Option String) :
    Except ReplicationClientError TableSchema :=
  match get_table_id c.classes table_name with
  | .error e => .error e
  | .ok none => .error (.MissingTable table_name)
  | .ok (some table_id) =>
    match get_column_schemas c.attributes c.publicationRels table_id publication with
    | .error e => .error e
    | .ok column_schemas =>
      .ok ⟨table_name, table_id,
        column_schemas, get_lookup_key c.attributes c.indexes table_id column_schemas⟩

/-- `HashMap::insert`: replace the value at an existing key, else append. -/
def insertSchema (m : List (Nat × TableSchema)) (k : Nat) (v : TableSchema) :
    List (Nat × TableSchema) :=
  if m.any fun p => p.1 == k then
    m.map fun p => if p.1 == k then (k, v) else p
  else
    m ++ [(k, v)]

def get_table_schemas_aux (c : Catalog) (publication : Option String) :
    List TableName → List (Nat × TableSchema) →
    Except ReplicationClientError (List (Nat × TableSchema))
  | [], m => .ok m
  | tn :: rest, m =>
    match get_table_schema c tn publication with
    | .error e => .error e
    | .ok ts =>
      if ts.has_safe_lookup_key then
        get_table_schemas_aux c publication rest (insertSchema m ts.table_id ts)
      else
        get_table_schemas_aux c publication rest m

/-- `get_table_schemas`: build a schema per name; skip (with a warning)
tables without a safe lookup key; collect the rest into the map. -/
def get_table_schemas (c : Catalog) (table_names : List TableName)
    (publication : Option String) :
    Except ReplicationClientError (List (Nat × TableSchema)) :=
  get_table_schemas_aux c publication table_names []

/-! ## `get_publication_table_names` -/

def processPubTableRow (r : PgPublicationTableRow) :
    Except ReplicationClientError TableName :=
  match r.schemaname with
  | none => .error (.MissingColumn "schemaname" "pg_publication_tables")
  | some schema =>
    match r.tablename with
    | none => .error (.MissingColumn "tablename" "pg_publication_tables")
    | some name => .ok ⟨schema, name⟩

/-- `get_publication_table_names`: `pg_publication_tables` filtered by
`pubname`, rows mapped to `(schemaname, tablename)` pairs. -/
def get_publication_table_names (rows : List PgPublicationTableRow)
    (publication : String) : Except ReplicationClientError (List TableName) :=
  (rows.filter fun r => r.pubname == publication).mapM processPubTableRow

/-! ## Session transaction state and slots -/

/-- Client-side session state: the `in_txn` flag. -/
structure ClientState where
  in_txn : Bool
deriving DecidableEq, Repr

/-- The commands the session / slot code issues on the connection. -/
inductive Cmd where
  | beginReadonly
  | commit
  | rollback
  | slotQuery (slot_name : String)
  | createSlot (slot_name : String)
deriving DecidableEq, Repr

/-- Server-side environment for the slot operations: the
`pg_replication_slots` rows (name, optional `confirmed_flush_lsn` text) and
the rows a `CREATE_REPLICATION_SLOT` returns (`consistent_point` as optional
text). -/
structure SlotEnv where
  slots : List (String × Option String)
  createSlotRows : List (Option String)
deriving DecidableEq, Repr

structure SlotInfo where
  confirmed_flush_lsn : Nat
deriving DecidableEq, Repr

/-- The outcome of an operation: result, client state after, and the commands
issued on the connection, in order. -/
structure Step (α : Type) where
  res : Except ReplicationClientError α
  state : ClientState
  trace : List Cmd

def isHexDigitChar (c : Char) : Bool :=
  c.isDigit || (97 ≤ c.toNat && c.toNat ≤ 102) || (65 ≤ c.toNat && c.toNat ≤ 70)

def hexVal (c : Char) : Nat :=
  if c.isDigit then c.toNat - 48
  else if 97 ≤ c.toNat && c.toNat ≤ 102 then c.toNat - 87
  else c.toNat - 55

/-- `u64::from_str_radix(_, 16)`: optional `+`, hex digits, 64-bit bound. -/
def parseHexU64 (l : List Char) : Option Nat :=
  let l := stripPlus l
  if !l.isEmpty && l.all isHexDigitChar then
    let v := l.foldl (fun acc c => acc * 16 + hexVal c) 0
    if v < 2 ^ 64 then some v else none
  else none

/-- Rust `str::split_once('/')`: the text before and after the first slash. -/
def splitOnceSlash : List Char → Option (List Char × List Char)
  | [] => none
  | c :: rest =>
    if c = '/' then some ([], rest)
    else
      match splitOnceSlash rest with
      | none => none
      | some (l, r) => some (c :: l, r)

/-- `PgLsn::from_str` of the `postgres-types` dependency: split at the first
`/`, parse both halves as hex `u64`, combine as `(hi << 32) | lo` on `u64`. -/
def parseLsn (s : String) : Option Nat :=
  match splitOnceSlash s.data with
  | none => none
  | some (hi, lo) =>
    match parseHexU64 hi, parseHexU64 lo with
    | some h, some l => some (Nat.lor (h * 2 ^ 32 % 2 ^ 64) l)
    | _, _ => none

/-- `begin_readonly_transaction`: issue the BEGIN; set `in_txn = true` only
after it succeeds. -/
def begin_readonly_transaction (db : Cmd → Bool) (s : ClientState) : Step Unit :=
  if db .beginReadonly then ⟨.ok (), ⟨true⟩, [.beginReadonly]⟩
  else ⟨.error .TokioPostgresError, s, [.beginReadonly]⟩

/-- `commit_txn`: a no-op when `in_txn` is false; otherwise issue COMMIT and
clear the flag only after it succeeds. -/
def commit_txn (db : Cmd → Bool) (s : ClientState) : Step Unit :=
  if s.in_txn then
    if db .commit then ⟨.ok (), ⟨false⟩, [.commit]⟩
    else ⟨.error .TokioPostgresError, s, [.commit]⟩
  else ⟨.ok (), s, []⟩

/-- `rollback_txn`: a no-op when `in_txn` is false; otherwise issue ROLLBACK
and clear the flag only after it succeeds. -/
def rollback_txn (db : Cmd → Bool) (s : ClientState) : Step Unit :=
  if s.in_txn then
    if db .rollback then ⟨.ok (), ⟨false⟩, [.rollback]⟩
    else ⟨.error .TokioPostgresError, s, [.rollback]⟩
  else ⟨.ok (), s, []⟩

def processSlotRow (lsnText : Option String) : Except ReplicationClientError SlotInfo :=
  match lsnText with
  | none => .error (.MissingColumn "confirmed_flush_lsn" "pg_replication_slots")
  | some t =>
    match parseLsn t with
    | none => .error .InvalidPgLsn
    | some lsn => .ok ⟨lsn⟩

/-- `get_slot`: query `pg_replication_slots` by name; the first row yields the
slot info, no row yields `None`. Takes `&self`: the state never changes. -/
def get_slot (db : Cmd → Bool) (env : SlotEnv) (s : ClientState) (slot_name : String) :
    Step (Option SlotInfo) :=
  if db (.slotQuery slot_name) then
    match (env.slots.filter fun p => p.1 == slot_name).head? with
    | none => ⟨.ok none, s, [.slotQuery slot_name]⟩
    | some (_, lsnText) =>
      match processSlotRow lsnText with
      | .error e => ⟨.error e, s, [.slotQuery slot_name]⟩
      | .ok info => ⟨.ok (some info), s, [.slotQuery slot_name]⟩
  else ⟨.error .TokioPostgresError, s, [.slotQuery slot_name]⟩

/-- `create_slot`: issue `CREATE_REPLICATION_SLOT ... USE_SNAPSHOT`; parse the
`consistent_point` of the first row; no row means `FailedToCreateSlot`. -/
def create_slot (db : Cmd → Bool) (env : SlotEnv) (s : ClientState) (slot_name : String) :
    Step SlotInfo :=
  if db (.createSlot slot_name) then
    match env.createSlotRows.head? with
    | none => ⟨.error .FailedToCreateSlot, s, [.createSlot slot_name]⟩
    | some none =>
      ⟨.error (.MissingColumn "consistent_point" "create_replication_slot"), s,
        [.createSlot slot_name]⟩
    | some (some t) =>
      match parseLsn t with
      | none => ⟨.error .InvalidPgLsn, s, [.createSlot slot_name]⟩
      | some lsn => ⟨.ok ⟨lsn⟩, s, [.createSlot slot_name]⟩
  else ⟨.error .TokioPostgresError, s, [.createSlot slot_name]⟩

/-- `get_or_create_slot`: return an existing slot untouched; otherwise roll
back any open transaction, begin a fresh read-only repeatable-read
transaction, then create the slot. -/
def get_or_create_slot (db : Cmd → Bool) (env : SlotEnv) (s : ClientState)
    (slot_name : String) : Step SlotInfo :=
  let g := get_slot db env s slot_name
  match g.res with
  | .error e => ⟨.error e, g.state, g.trace⟩
  | .ok (some slot_info) => ⟨.ok slot_info, g.state, g.trace⟩
  | .ok none =>
    let r := rollback_txn db g.state
    match r.res with
    | .error e => ⟨.error e, r.state, g.trace ++ r.trace⟩
    | .ok _ =>
      let b := begin_readonly_transaction db r.state
      match b.res with
      | .error e => ⟨.error e, b.state, g.trace ++ r.trace ++ b.trace⟩
      | .ok _ =>
        let cs := create_slot db env b.state slot_name
        ⟨cs.res, cs.state, g.trace ++ r.trace ++ b.trace ++ cs.trace⟩

/-! ## Claim theorems -/

/-- Catalog rows of the scenario of `test_lookup_key_respects_publication_columns`
(`src/tests/clients/postgres.rs`): table 1001 with `id` (primary key),
`email` (unique, NOT NULL) and `data`. -/
def pubColsAttrs : List PgAttribute :=
  [⟨1001, 1, "id", 23, -1, true, false, ""⟩,
   ⟨1001, 2, "email", 25, -1, true, false, ""⟩,
   ⟨1001, 3, "data", 25, -1, false, false, ""⟩]

/-- The two indexes of that table: the primary key on `id` and the unique
index on `email`. -/
def pubColsIndexes : List PgIndex :=
  [⟨"test_publication_columns_pkey", 1001, true, true, true, [1], false⟩,
   ⟨"test_publication_columns_email_key", 1001, true, false, true, [2], false⟩]

/-- The column schemas for the publication with column list `(email, data)`. -/
def pubColsPublished : List ColumnSchema :=
  [⟨"email", ⟨"text", 25, .Simple, "pg_catalog"⟩, -1, false⟩,
   ⟨"data", ⟨"text", 25, .Simple, "pg_catalog"⟩, -1, true⟩]

/-- C1: when the primary key's column is absent from the publication, the code
does NOT fall through to the later unique index on `email` even though that
index is a fully published candidate: because of `LIMIT 1` the query returns
only the primary-key row, the subset check fails, and `get_lookup_key` yields
`FullRow` — contradicting the claim (and the repository's own test, which
expects `Key` on `["email"]`). -/
theorem get_lookup_key_limit_one_skips_published_candidate :
    get_lookup_key pubColsAttrs pubColsIndexes 1001 pubColsPublished = .FullRow ∧
    indexCandidateOk pubColsAttrs 1001
      ⟨"test_publication_columns_email_key", 1001, true, false, true, [2], false⟩ = true ∧
    (indexColumnNames pubColsAttrs 1001
      ⟨"test_publication_columns_email_key", 1001, true, false, true, [2], false⟩).all
        (fun n => (pubColsPublished.map (·.name)).contains n) = true := by
  decide

/-- Catalog rows of the scenario of
`test_lookup_key_ignores_deferrable_constraints`: table 1002 with a
deferrable unique constraint on `email` and a non-deferrable unique
constraint on `username`, both NOT NULL. -/
def deferAttrs : List PgAttribute :=
  [⟨1002, 1, "id", 23, -1, false, false, ""⟩,
   ⟨1002, 2, "email", 25, -1, true, false, ""⟩,
   ⟨1002, 3, "username", 25, -1, true, false, ""⟩,
   ⟨1002, 4, "data", 25, -1, false, false, ""⟩]

/-- The two constraint indexes; `condeferrable` is true for the `email` one. -/
def deferIndexes : List PgIndex :=
  [⟨"deferrable_unique_email", 1002, true, false, true, [2], true⟩,
   ⟨"non_deferrable_unique_username", 1002, true, false, true, [3], false⟩]

/-- All four columns are published (no publication column list). -/
def deferPublished : List ColumnSchema :=
  [⟨"id", ⟨"int4", 23, .Simple, "pg_catalog"⟩, -1, true⟩,
   ⟨"email", ⟨"text", 25, .Simple, "pg_catalog"⟩, -1, false⟩,
   ⟨"username", ⟨"text", 25, .Simple, "pg_catalog"⟩, -1, false⟩,
   ⟨"data", ⟨"text", 25, .Simple, "pg_catalog"⟩, -1, true⟩]

/-- C2: the lookup-key query has no deferrability filter, and the deferrable
constraint's index sorts first by name, so `get_lookup_key` returns the
deferrable `email` key — not the non-deferrable `username` key the claim (and
the repository's own test) demands. The second conjunct records that the
returned index is exactly the one owned by a deferrable constraint. -/
theorem get_lookup_key_returns_deferrable_index :
    get_lookup_key deferAttrs deferIndexes 1002 deferPublished =
      .Key "deferrable_unique_email" ["email"] ∧
    (deferIndexes.filter (·.condeferrable)).map (·.indexrelname) =
      ["deferrable_unique_email"] := by
  decide

/-- C3 counterexample: a processed row whose `attnotnull` text is `"x"` — a
value other than `"t"` — yields `nullable = false`, because the code compares
against `"f"`, not against `"t"`; the claim would require `nullable = true`
here. -/
theorem processColumnRow_attnotnull_x_not_nullable :
    processColumnRow ⟨some "c", some "23", some "-1", some "x"⟩ =
      .ok ⟨"c", ⟨"int4", 23, .Simple, "pg_catalog"⟩, -1, false⟩ ∧
    "x" ≠ "t" ∧ "x" ≠ "f" := by
  refine ⟨rfl, by decide, by decide⟩

/-- C3 (amended): for every catalog row processed by `get_column_schemas`, the
resulting `ColumnSchema` has `nullable = true` exactly when the `attnotnull`
value is the string `"f"`, and `nullable = false` for any other value
(in particular for `"t"`). -/
theorem processColumnRow_nullable_iff_attnotnull_f (r : RawColumnRow) (cs : ColumnSchema)
    (h : processColumnRow r = .ok cs) :
    ∃ s, r.attnotnull = some s ∧ cs.nullable = (s == "f") := by
  rcases r with ⟨attname?, atttypid?, atttypmod?, attnotnull?⟩
  cases attname? with
  | none => simp [processColumnRow] at h
  | some name =>
    cases atttypid? with
    | none => simp [processColumnRow] at h
    | some oidText =>
      cases hp : parseU32 oidText with
      | none => simp [processColumnRow, hp] at h
      | some type_oid =>
        cases atttypmod? with
        | none => simp [processColumnRow, hp] at h
        | some modText =>
          cases hm : parseI32 modText with
          | none => simp [processColumnRow, hp, hm] at h
          | some modifier =>
            cases attnotnull? with
            | none => simp [processColumnRow, hp, hm] at h
            | some nn =>
              refine ⟨nn, rfl, ?_⟩
              simp only [processColumnRow, hp, hm] at h
              cases h
              rfl

/-- C3 amended-claim witness at a concrete row with `attnotnull = "f"`. -/
theorem processColumnRow_nullable_iff_attnotnull_f_witness :
    ∃ s, (RawColumnRow.mk (some "c") (some "23") (some "-1") (some "f")).attnotnull = some s ∧
      (ColumnSchema.mk "c" ⟨"int4", 23, .Simple, "pg_catalog"⟩ (-1) true).nullable =
        (s == "f") :=
  processColumnRow_nullable_iff_attnotnull_f _ _ rfl

/-- C8: a type OID unknown to `Type::from_oid` is not an error: the column is
returned with a synthesized `Simple` type in namespace `pg_catalog` carrying
the raw OID and the name `unnamed(oid: N)`. -/
theorem processColumnRow_unknown_oid_unnamed_type (r : RawColumnRow)
    (name oidText modText nn : String) (type_oid : Nat) (modifier : Int)
    (h1 : r.attname = some name) (h2 : r.atttypid = some oidText)
    (h3 : parseU32 oidText = some type_oid) (h4 : PgType.from_oid type_oid = none)
    (h5 : r.atttypmod = some modText) (h6 : parseI32 modText = some modifier)
    (h7 : r.attnotnull = some nn) :
    processColumnRow r =
      .ok ⟨name,
        ⟨"unnamed(oid: " ++ renderNat type_oid ++ ")", type_oid, .Simple, "pg_catalog"⟩,
        modifier, nn == "f"⟩ := by
  rcases r with ⟨attname?, atttypid?, atttypmod?, attnotnull?⟩
  simp only at h1 h2 h5 h7
  subst h1 h2 h5 h7
  simp [processColumnRow, h3, h6, resolveType, h4, unnamedType]

/-- C8 witness: OID 99999 is unknown; the synthesized type is
`unnamed(oid: 99999)`. -/
theorem processColumnRow_unknown_oid_unnamed_type_witness :
    processColumnRow ⟨some "c", some "99999", some "-1", some "t"⟩ =
      .ok ⟨"c", ⟨"unnamed(oid: 99999)", 99999, .Simple, "pg_catalog"⟩, -1, false⟩ :=
  processColumnRow_unknown_oid_unnamed_type _ "c" "99999" "-1" "t" 99999 (-1)
    rfl rfl (by rfl) (by rfl) rfl (by rfl) rfl

/-- C10: when the underlying SQL command fails, the `in_txn` flag is left
unchanged: `begin_readonly_transaction` leaves the state as it was (in
particular false stays false), and `commit_txn` / `rollback_txn` leave it
true when a transaction was open. -/
theorem in_txn_unchanged_on_error (db : Cmd → Bool) (s : ClientState)
    (hb : db .beginReadonly = false) (hc : db .commit = false)
    (hr : db .rollback = false) :
    ((begin_readonly_transaction db s).res = .error .TokioPostgresError ∧
      (begin_readonly_transaction db s).state = s) ∧
    (s.in_txn = true →
      (commit_txn db s).res = .error .TokioPostgresError ∧ (commit_txn db s).state = s) ∧
    (s.in_txn = true →
      (rollback_txn db s).res = .error .TokioPostgresError ∧
        (rollback_txn db s).state = s) := by
  refine ⟨?_, ?_, ?_⟩
  · simp [begin_readonly_transaction, hb]
  · intro ht
    simp [commit_txn, ht, hc]
  · intro ht
    simp [rollback_txn, ht, hr]

/-- C10 witness: with every command failing and a transaction open, all three
operations leave the state untouched. -/
theorem in_txn_unchanged_on_error_witness :
    ((begin_readonly_transaction (fun _ => false) ⟨true⟩).res =
        .error .TokioPostgresError ∧
      (begin_readonly_transaction (fun _ => false) ⟨true⟩).state = ⟨true⟩) ∧
    ((commit_txn (fun _ => false) ⟨true⟩).res = .error .TokioPostgresError ∧
      (commit_txn (fun _ => false) ⟨true⟩).state = ⟨true⟩) ∧
    ((rollback_txn (fun _ => false) ⟨true⟩).res = .error .TokioPostgresError ∧
      (rollback_txn (fun _ => false) ⟨true⟩).state = ⟨true⟩) := by
  have h := in_txn_unchanged_on_error (fun _ => false) ⟨true⟩ rfl rfl rfl
  exact ⟨h.1, h.2.1 rfl, h.2.2 rfl⟩

/-- C7: `get_table_id` returns `None` when no `pg_class ⋈ pg_namespace` row
matches `(schema, name)`; on the first matching row it fails with
`ReplicaIdentityNotSupported` carrying the `relreplident` value when that
value is neither `d` nor `f`, and otherwise parses the OID as `u32`,
returning `Some oid`, or `OidColumnNotU32` when the text is not a `u32`. -/
theorem get_table_id_spec (classes : List PgClassRow) (t : TableName) :
    ((classes.filter fun r => r.nspname == t.schema && r.relname == t.name) = [] →
      get_table_id classes t = .ok none) ∧
    (∀ row rest,
      (classes.filter fun r => r.nspname == t.schema && r.relname == t.name) = row :: rest →
      ∀ ident, row.relreplident = some ident →
        (¬(ident = "d" ∨ ident = "f") →
          get_table_id classes t = .error (.ReplicaIdentityNotSupported ident)) ∧
        ((ident = "d" ∨ ident = "f") →
          ∀ oidText, row.oid = some oidText →
            (parseU32 oidText = none → get_table_id classes t = .error .OidColumnNotU32) ∧
            (∀ oid, parseU32 oidText = some oid →
              get_table_id classes t = .ok (some oid)))) := by
  constructor
  · intro hnil
    unfold get_table_id
    rw [hnil]
  · intro row rest hcons ident hident
    constructor
    · intro hni
      push_neg at hni
      have hbool : (ident == "d" || ident == "f") = false := by
        simp [hni.1, hni.2]
      unfold get_table_id
      simp only [hcons, hident, hbool, Bool.false_eq_true, if_false]
    · intro hyes oidText hoid
      have hbool : (ident == "d" || ident == "f") = true := by
        rcases hyes with h | h <;> simp [h]
      constructor
      · intro hparse
        unfold get_table_id
        simp only [hcons, hident, hbool, if_true, hoid, hparse]
      · intro oid hparse
        unfold get_table_id
        simp only [hcons, hident, hbool, if_true, hoid, hparse]

/-- C7 witness: the four observable outcomes at concrete catalogs. -/
theorem get_table_id_spec_witness :
    get_table_id [] ⟨"public", "t"⟩ = .ok none ∧
    get_table_id [⟨"public", "t", some "1001", some "d"⟩] ⟨"public", "t"⟩ =
      .ok (some 1001) ∧
    get_table_id [⟨"public", "t", some "1001", some "n"⟩] ⟨"public", "t"⟩ =
      .error (.ReplicaIdentityNotSupported "n") ∧
    get_table_id [⟨"public", "t", some "xyz", some "f"⟩] ⟨"public", "t"⟩ =
      .error .OidColumnNotU32 := by
  refine ⟨?_, ?_, ?_, ?_⟩
  · exact (get_table_id_spec [] ⟨"public", "t"⟩).1 (by rfl)
  · exact ((((get_table_id_spec [⟨"public", "t", some "1001", some "d"⟩]
      ⟨"public", "t"⟩).2 _ _ (by rfl) "d" rfl).2 (Or.inl rfl)) "1001" rfl).2 1001 (by rfl)
  · exact (((get_table_id_spec [⟨"public", "t", some "1001", some "n"⟩]
      ⟨"public", "t"⟩).2 _ _ (by rfl) "n" rfl).1 (by decide))
  · exact ((((get_table_id_spec [⟨"public", "t", some "xyz", some "f"⟩]
      ⟨"public", "t"⟩).2 _ _ (by rfl) "f" rfl).2 (Or.inr rfl)) "xyz" rfl).1 (by rfl)

lemma processPubTableRow_not_missing_publication (r : PgPublicationTableRow) (p : String) :
    processPubTableRow r ≠ .error (.MissingPublication p) := by
  unfold processPubTableRow
  rcases r with ⟨pn, sn, tn⟩
  cases sn <;> cases tn <;> simp

lemma mapM_processPubTableRow_not_missing_publication
    (l : List PgPublicationTableRow) (p : String) :
    l.mapM processPubTableRow ≠ .error (.MissingPublication p) := by
  induction l with
  | nil =>
    intro h
    have h' : (Except.ok [] : Except ReplicationClientError (List TableName)) =
        .error (.MissingPublication p) := h
    exact Except.noConfusion h'
  | cons r t ih =>
    intro hcontra
    rw [List.mapM_cons] at hcontra
    cases hr : processPubTableRow r with
    | error e =>
      rw [hr] at hcontra
      have h' : (Except.error e : Except ReplicationClientError (List TableName)) =
          .error (.MissingPublication p) := hcontra
      have he : e = .MissingPublication p := by injection h'
      exact processPubTableRow_not_missing_publication r p (he ▸ hr)
    | ok v =>
      rw [hr] at hcontra
      cases ht : t.mapM processPubTableRow with
      | error e =>
        rw [ht] at hcontra
        have h' : (Except.error e : Except ReplicationClientError (List TableName)) =
            .error (.MissingPublication p) := hcontra
        have he : e = .MissingPublication p := by injection h'
        exact ih (he ▸ ht)
      | ok vs =>
        have h' : (Except.ok (v :: vs) : Except ReplicationClientError (List TableName)) =
            .error (.MissingPublication p) := by rw [ht] at hcontra; exact hcontra
        exact Except.noConfusion h'

/-- C9: a publication name matching no `pg_publication_tables` row makes
`get_publication_table_names` return `Ok` with the empty list, and no input
whatsoever makes it raise `MissingPublication`. -/
theorem get_publication_table_names_no_match_empty (rows : List PgPublicationTableRow)
    (publication : String) :
    ((rows.filter fun r => r.pubname == publication) = [] →
      get_publication_table_names rows publication = .ok []) ∧
    ∀ p, get_publication_table_names rows publication ≠
      .error (.MissingPublication p) := by
  constructor
  · intro h
    unfold get_publication_table_names
    rw [h]
    rfl
  · intro p
    unfold get_publication_table_names
    exact mapM_processPubTableRow_not_missing_publication _ p

/-- C9 witness: a publication present in the catalog only for other
publications' rows yields `Ok []` and not `MissingPublication`. -/
theorem get_publication_table_names_no_match_empty_witness :
    get_publication_table_names [⟨"otherpub", some "public", some "t"⟩] "nopub" =
      .ok [] ∧
    get_publication_table_names [⟨"otherpub", some "public", some "t"⟩] "nopub" ≠
      .error (.MissingPublication "nopub") :=
  ⟨(get_publication_table_names_no_match_empty _ "nopub").1 (by rfl),
    (get_publication_table_names_no_match_empty _ "nopub").2 "nopub"⟩

lemma mem_columnQueryAttrs (attributes : List PgAttribute)
    (pubRels : List PgPublicationRel) (table_id : Nat) (publication : Option String)
    (a : PgAttribute) :
    a ∈ columnQueryAttrs attributes pubRels table_id publication ↔
      a ∈ attributes ∧ a.attrelid = table_id ∧ attBaseOk a = true ∧
        pubPredOk pubRels publication table_id a = true := by
  unfold columnQueryAttrs
  rw [List.mem_insertionSort, List.mem_filter]
  simp [Bool.and_eq_true, and_assoc]

lemma pubPredOk_of_ne_nil {pubRels : List PgPublicationRel} {publication : String}
    {table_id : Nat} (hne : pubAttnums pubRels publication table_id ≠ [])
    (a : PgAttribute) :
    pubPredOk pubRels (some publication) table_id a =
      (pubAttnums pubRels publication table_id).contains a.attnum := by
  have hie : (pubAttnums pubRels publication table_id).isEmpty = false := by
    cases hpa : pubAttnums pubRels publication table_id with
    | nil => exact absurd hpa hne
    | cons x xs => rfl
  show (if (pubAttnums pubRels publication table_id).isEmpty = true then true
    else (pubAttnums pubRels publication table_id).contains a.attnum) = _
  rw [hie]
  simp

lemma pubPredOk_of_nil {pubRels : List PgPublicationRel} {publication : String}
    {table_id : Nat} (hnil : pubAttnums pubRels publication table_id = [])
    (a : PgAttribute) :
    pubPredOk pubRels (some publication) table_id a = true := by
  show (if (pubAttnums pubRels publication table_id).isEmpty = true then true
    else (pubAttnums pubRels publication table_id).contains a.attnum) = true
  rw [hnil]
  simp

/-- C4: with a publication supplied, `get_column_schemas` succeeds on an
in-range catalog and returns exactly the query rows, which are sorted by
ascending `attnum`; when the publication's column list for the relation is
non-empty, membership is exactly "column of the relation with a listed
`attnum`" (given that listed attnums reference ordinary columns, as Postgres
guarantees); when it is empty, membership is exactly "column of the relation
with `attnum > 0`, not dropped, not generated". -/
theorem get_column_schemas_publication_filter (attributes : List PgAttribute)
    (pubRels : List PgPublicationRel) (table_id : Nat) (publication : String)
    (hrange : ∀ a ∈ attributes, attrInRange a)
    (hwf : ∀ a ∈ attributes, a.attrelid = table_id →
      a.attnum ∈ pubAttnums pubRels publication table_id → attBaseOk a = true) :
    get_column_schemas attributes pubRels table_id (some publication) =
      .ok ((columnQueryAttrs attributes pubRels table_id (some publication)).map
        schemaOfAttr) ∧
    List.Sorted attnumLe
      (columnQueryAttrs attributes pubRels table_id (some publication)) ∧
    (pubAttnums pubRels publication table_id ≠ [] →
      ∀ a, a ∈ columnQueryAttrs attributes pubRels table_id (some publication) ↔
        a ∈ attributes ∧ a.attrelid = table_id ∧
          a.attnum ∈ pubAttnums pubRels publication table_id) ∧
    (pubAttnums pubRels publication table_id = [] →
      ∀ a, a ∈ columnQueryAttrs attributes pubRels table_id (some publication) ↔
        a ∈ attributes ∧ a.attrelid = table_id ∧ attBaseOk a = true) := by
  refine ⟨?_, ?_, ?_, ?_⟩
  · unfold get_column_schemas
    exact mapM_processColumnRow fun a ha =>
      hrange a ((mem_columnQueryAttrs _ _ _ _ a).mp ha).1
  · exact List.sorted_insertionSort attnumLe _
  · intro hne a
    rw [mem_columnQueryAttrs, pubPredOk_of_ne_nil hne a]
    constructor
    · rintro ⟨ha, hrel, _, hcont⟩
      exact ⟨ha, hrel, List.elem_iff.mp hcont⟩
    · rintro ⟨ha, hrel, hmem⟩
      exact ⟨ha, hrel, hwf a ha hrel hmem, List.elem_iff.mpr hmem⟩
  · intro hnil a
    rw [mem_columnQueryAttrs, pubPredOk_of_nil hnil a]
    simp

/-- Catalog for the C4 witness: table 2001 with three columns, published
through publication `p4` with column list `(email, data)` — attnums 2, 3. -/
def c4attrs : List PgAttribute :=
  [⟨2001, 1, "id", 23, -1, true, false, ""⟩,
   ⟨2001, 2, "email", 25, -1, true, false, ""⟩,
   ⟨2001, 3, "data", 25, -1, false, false, ""⟩]

def c4pubRels : List PgPublicationRel := [⟨"p4", 2001, [2, 3]⟩]

/-- C4 witness at a concrete catalog with a non-empty column list. -/
theorem get_column_schemas_publication_filter_witness :
    get_column_schemas c4attrs c4pubRels 2001 (some "p4") =
      .ok ((columnQueryAttrs c4attrs c4pubRels 2001 (some "p4")).map schemaOfAttr) ∧
    List.Sorted attnumLe (columnQueryAttrs c4attrs c4pubRels 2001 (some "p4")) ∧
    ((⟨2001, 2, "email", 25, -1, true, false, ""⟩ : PgAttribute) ∈
        columnQueryAttrs c4attrs c4pubRels 2001 (some "p4") ↔
      (⟨2001, 2, "email", 25, -1, true, false, ""⟩ : PgAttribute) ∈ c4attrs ∧
        (⟨2001, 2, "email", 25, -1, true, false, ""⟩ : PgAttribute).attrelid = 2001 ∧
        (⟨2001, 2, "email", 25, -1, true, false, ""⟩ : PgAttribute).attnum ∈
          pubAttnums c4pubRels "p4" 2001) := by
  have h := get_column_schemas_publication_filter c4attrs c4pubRels 2001 "p4"
    (by decide) (by decide)
  exact ⟨h.1, h.2.1, h.2.2.1 (by decide) _⟩

lemma mem_insertSchema {m : List (Nat × TableSchema)} {k : Nat} {v : TableSchema}
    {p : Nat × TableSchema} (h : p ∈ insertSchema m k v) : p ∈ m ∨ p = (k, v) := by
  unfold insertSchema at h
  split at h
  · rcases List.mem_map.mp h with ⟨q, hq, hpq⟩
    by_cases hk : (q.1 == k) = true
    · right
      rw [← hpq, if_pos hk]
    · left
      rw [← hpq, if_neg hk]
      exact hq
  · rcases List.mem_append.mp h with h | h
    · left
      exact h
    · right
      simpa using h

lemma get_table_schemas_aux_safe (c : Catalog) (pub : Option String) :
    ∀ (tns : List TableName) (m0 m : List (Nat × TableSchema)),
      (∀ p ∈ m0, p.2.has_safe_lookup_key = true) →
      get_table_schemas_aux c pub tns m0 = .ok m →
      ∀ p ∈ m, p.2.has_safe_lookup_key = true := by
  intro tns
  induction tns with
  | nil =>
    intro m0 m h0 hok
    have h' : (Except.ok m0 : Except ReplicationClientError _) = .ok m := hok
    have : m0 = m := by injection h'
    exact this ▸ h0
  | cons tn rest ih =>
    intro m0 m h0 hok
    unfold get_table_schemas_aux at hok
    cases hts : get_table_schema c tn pub with
    | error e =>
      rw [hts] at hok
      exact Except.noConfusion hok
    | ok ts =>
      simp only [hts] at hok
      by_cases hsafe : ts.has_safe_lookup_key = true
      · rw [if_pos hsafe] at hok
        refine ih _ _ ?_ hok
        intro p hp
        rcases mem_insertSchema hp with h | h
        · exact h0 p h
        · rw [h]
          exact hsafe
      · rw [if_neg hsafe] at hok
        exact ih _ _ h0 hok

/-- C5: every `TableSchema` in a map returned by `get_table_schemas` has a
lookup key that is a `Key` variant — tables whose lookup key is `FullRow`
are skipped and never appear in the result. -/
theorem get_table_schemas_no_fullrow (c : Catalog) (table_names : List TableName)
    (publication : Option String) (m : List (Nat × TableSchema))
    (h : get_table_schemas c table_names publication = .ok m) :
    ∀ p ∈ m, p.2.lookup_key ≠ .FullRow := by
  intro p hp hfull
  have hsafe := get_table_schemas_aux_safe c publication table_names [] m
    (by simp) h p hp
  unfold TableSchema.has_safe_lookup_key at hsafe
  rw [hfull] at hsafe
  exact Bool.noConfusion hsafe

/-- Catalog for the C5 witness: one table `public.t1` with an `int4` primary
key column. -/
def safeCat : Catalog :=
  ⟨[⟨"public", "t1", some "1001", some "d"⟩],
   [⟨1001, 1, "id", 23, -1, true, false, ""⟩],
   [⟨"t1_pkey", 1001, true, true, true, [1], false⟩],
   []⟩

def safeSchema : TableSchema :=
  ⟨⟨"public", "t1"⟩, 1001,
   [⟨"id", ⟨"int4", 23, .Simple, "pg_catalog"⟩, -1, false⟩],
   .Key "t1_pkey" ["id"]⟩

/-- C5 witness: the single entry of the concrete result map has a `Key`
lookup key. -/
theorem get_table_schemas_no_fullrow_witness :
    (1001, safeSchema).2.lookup_key ≠ .FullRow :=
  get_table_schemas_no_fullrow safeCat [⟨"public", "t1"⟩] none [(1001, safeSchema)]
    (by rfl) (1001, safeSchema) (by simp)

lemma get_slot_state (db : Cmd → Bool) (env : SlotEnv) (s : ClientState) (n : String) :
    (get_slot db env s n).state = s := by
  unfold get_slot
  repeat' split
  all_goals rfl

lemma get_slot_trace (db : Cmd → Bool) (env : SlotEnv) (s : ClientState) (n : String) :
    (get_slot db env s n).trace = [.slotQuery n] := by
  unfold get_slot
  repeat' split
  all_goals rfl

lemma create_slot_state (db : Cmd → Bool) (env : SlotEnv) (s : ClientState) (n : String) :
    (create_slot db env s n).state = s := by
  unfold create_slot
  repeat' split
  all_goals rfl

lemma create_slot_trace (db : Cmd → Bool) (env : SlotEnv) (s : ClientState) (n : String) :
    (create_slot db env s n).trace = [.createSlot n] := by
  unfold create_slot
  repeat' split
  all_goals rfl

/-- C6: when `get_slot` finds the slot, `get_or_create_slot` returns its info
with the session state untouched and no transaction command issued; when it
finds none (and the transaction commands succeed), the issued commands are
exactly a rollback if and only if a transaction was open, then a fresh
read-only begin, and only then the slot creation, which runs with
`in_txn = true`. -/
theorem get_or_create_slot_txn_discipline (db : Cmd → Bool) (env : SlotEnv)
    (s : ClientState) (slot_name : String) :
    (∀ slot_info, (get_slot db env s slot_name).res = .ok (some slot_info) →
      (get_or_create_slot db env s slot_name).res = .ok slot_info ∧
      (get_or_create_slot db env s slot_name).state = s ∧
      (get_or_create_slot db env s slot_name).trace = [.slotQuery slot_name]) ∧
    ((get_slot db env s slot_name).res = .ok none →
      db .rollback = true → db .beginReadonly = true →
      (get_or_create_slot db env s slot_name).trace =
        [.slotQuery slot_name] ++ (if s.in_txn then [.rollback] else []) ++
          [.beginReadonly, .createSlot slot_name] ∧
      (get_or_create_slot db env s slot_name).state.in_txn = true) := by
  constructor
  · intro slot_info hres
    unfold get_or_create_slot
    simp [hres, get_slot_state, get_slot_trace]
  · intro hres hrb hbg
    unfold get_or_create_slot
    simp only [hres, get_slot_state, get_slot_trace]
    rcases s with ⟨intxn⟩
    cases intxn
    · simp [rollback_txn, begin_readonly_transaction, hbg,
        create_slot_state, create_slot_trace]
    · simp [rollback_txn, hrb, begin_readonly_transaction, hbg,
        create_slot_state, create_slot_trace]

/-- Environment for the C6 witness: slot `s1` exists, `s2` does not. -/
def slotEnvW : SlotEnv := ⟨[("s1", some "0/16B3748")], [some "0/16B3750"]⟩

/-- C6 witness: both branches at a concrete environment, starting inside a
transaction. -/
theorem get_or_create_slot_txn_discipline_witness :
    ((get_or_create_slot (fun _ => true) slotEnvW ⟨true⟩ "s1").res = .ok ⟨23803720⟩ ∧
      (get_or_create_slot (fun _ => true) slotEnvW ⟨true⟩ "s1").state = ⟨true⟩ ∧
      (get_or_create_slot (fun _ => true) slotEnvW ⟨true⟩ "s1").trace =
        [.slotQuery "s1"]) ∧
    ((get_or_create_slot (fun _ => true) slotEnvW ⟨true⟩ "s2").trace =
        [.slotQuery "s2", .rollback, .beginReadonly, .createSlot "s2"] ∧
      (get_or_create_slot (fun _ => true) slotEnvW ⟨true⟩ "s2").state.in_txn = true) := by
  constructor
  · exact (get_or_create_slot_txn_discipline (fun _ => true) slotEnvW ⟨true⟩ "s1").1
      ⟨23803720⟩ (by rfl)
  · have h := (get_or_create_slot_txn_discipline (fun _ => true) slotEnvW ⟨true⟩ "s2").2
      (by rfl) rfl rfl
    exact ⟨by rw [h.1]; simp, h.2⟩

end PgReplicate
